import Mathlib

/-!
Verification of the lesson-plan content pipeline in `app.py`.

The Python source is shallowly embedded: text is `List Char` (Python `str`),
dictionaries are association lists in insertion order, the docx document is a
tree of paragraph texts, and the external TextRank summarizer (the `sumy`
library) is a parameter `tr` returning `none` when it raises.  Each function
below mirrors the Python function of the same (snake-cased) name.
-/

namespace RiseLessonBot

/-- Python `str` modelled as a list of characters. -/
abbrev Text := List Char

/-- Python whitespace for `str.strip` / `\s` (ASCII set). -/
def isPySpace (c : Char) : Bool :=
  c = ' ' || c = '\t' || c = '\n' || c = '\r' || c = '\x0b' || c = '\x0c'

/-- Python `str.lower` (ASCII). -/
def lowerT (t : Text) : Text := t.map Char.toLower

/-- `begWith pat t`: `t` starts with `pat` (Python `str.startswith`). -/
def begWith : Text → Text → Bool
  | [], _ => true
  | _ :: _, [] => false
  | a :: as, b :: bs => a = b && begWith as bs

/-- `hasSub n h`: `n` occurs contiguously in `h` (Python `n in h`). -/
def hasSub (n : Text) : Text → Bool
  | [] => begWith n []
  | h@(_ :: t) => begWith n h || hasSub n t

/-- Case-insensitive substring test: Python `label.lower() in ptext.lower()`. -/
def containsCI (ptext label : Text) : Bool := hasSub (lowerT label) (lowerT ptext)

/-- Python `str.lstrip()`. -/
def lstrip : Text → Text
  | [] => []
  | c :: r => if isPySpace c then lstrip r else c :: r

/-- Python `str.rstrip()`. -/
def rstrip (t : Text) : Text := (lstrip t.reverse).reverse

/-- Python `str.strip()`. -/
def strip (t : Text) : Text := lstrip (rstrip t)

/-- Python `str.rstrip(".")`. -/
def rstripDots (t : Text) : Text :=
  ((t.reverse.dropWhile (fun c => c = '.'))).reverse

/-- Python `str.split(sep)` on a one-character separator (`"".split(sep) = [""]`). -/
def splitOn (sep : Char) : Text → List Text
  | [] => [[]]
  | c :: rest =>
    let r := splitOn sep rest
    if c = sep then [] :: r
    else match r with
      | [] => [[c]]
      | h :: t => (c :: h) :: t

/-- Python `sep.join(parts)` for a one-character separator. -/
def joinSep (sep : Char) : List Text → Text
  | [] => []
  | [x] => x
  | x :: xs => x ++ sep :: joinSep sep xs

/-- Split at the first occurrence of `c`: `some (before, after)` without `c` itself. -/
def splitAtFirst (c : Char) : Text → Option (Text × Text)
  | [] => none
  | d :: rest =>
    if d = c then some ([], rest)
    else (splitAtFirst c rest).map (fun p => (d :: p.1, p.2))

/-- Word counter for Python `len(s.split())`: counts maximal non-whitespace runs. -/
def wcAux : Bool → Text → Nat
  | _, [] => 0
  | inw, c :: r =>
    if isPySpace c then wcAux false r
    else (if inw then 0 else 1) + wcAux true r

/-- Python `len(s.split())`. -/
def wordCount (t : Text) : Nat := wcAux false t

/-! ## Summarizer (`summarize_text`) and heuristics

The `sumy` TextRank pipeline is an external library; it is modelled as a
parameter `tr : Text → Nat → Option (List Text)` returning the summary
sentences on success and `none` when tokenization/summarization raises. -/

/-- Abstract behaviour of the external TextRank summarizer. -/
abbrev TextRankFn := Text → Nat → Option (List Text)

/-- `summarize_text(text, sentences_count)` from `app.py` lines 131-142. -/
def summarize_text (tr : TextRankFn) (text : Text) (sentences_count : Nat := 6) : Text :=
  if text = [] then []
  else
    match tr text sentences_count with
    | some sents => joinSep '\n' sents
    | none =>
      let lines := ((splitOn '\n' text).map strip).filter (fun ln => ln ≠ [])
      if lines ≠ [] then joinSep '\n' (lines.take sentences_count)
      else if text ≠ [] then text.take 1000 else []

/-- Keyword set of `extract_objectives_from_text`. -/
def objectiveKeywords : List Text :=
  ["able to".toList, "will".toList, "understand".toList, "learn".toList,
   "identify".toList, "describe".toList, "students will".toList]

/-- `extract_objectives_from_text(text, max_points)` from `app.py` lines 144-158. -/
def extract_objectives_from_text (tr : TextRankFn) (text : Text) (max_points : Nat := 5) :
    Text :=
  let candidates := (splitOn '.' text).filterMap (fun sent =>
    let s := strip sent
    if s = [] then none
    else if objectiveKeywords.any (fun k => hasSub k (lowerT s)) then some s
    else none)
  if candidates ≠ [] then
    joinSep '\n' ((candidates.take max_points).map (fun c => "• ".toList ++ c))
  else
    let summ := summarize_text tr text max_points
    if summ ≠ [] then
      joinSep '\n' (((splitOn '\n' summ).filterMap (fun s =>
        if strip s ≠ [] then some ("• ".toList ++ strip s) else none)))
    else "• Students will be able to ...".toList

/-- One numbered question line `f"Q{i}. Explain: {s}?"`. -/
def qline (i : Nat) (s : Text) : Text :=
  "Q".toList ++ (Nat.repr i).toList ++ ". Explain: ".toList ++ s ++ "?".toList

/-- The question loop of `generate_assessment_questions`: enumerate from `start`,
skip sentences under 3 words, number by position. -/
def buildQs (i : Nat) : List Text → List Text
  | [] => []
  | s :: rest =>
    let s2 := rstripDots (strip s)
    if wordCount s2 < 3 then buildQs (i + 1) rest
    else qline i s2 :: buildQs (i + 1) rest

/-- `generate_assessment_questions(text, max_q)` from `app.py` lines 168-178. -/
def generate_assessment_questions (tr : TextRankFn) (text : Text) (max_q : Nat := 4) :
    Text :=
  let summary := summarize_text tr text 4
  let qs := buildQs 1 ((splitOn '\n' summary).take max_q)
  if qs = [] then
    joinSep '\n' ["Q1. What is the main idea of the chapter?".toList,
                  "Q2. List two key points.".toList]
  else joinSep '\n' qs

/-! ## Labeled-section extractor (`extract_section`)

The Python function searches `({names})\s*[:\-\n]\s*(.*?)(\n[A-Z][^\n]{0,80}:|\Z)`
with flags `re.I | re.S`.  The pattern is embedded directly, following the
engine's leftmost-match, alternation-order and greedy/lazy backtracking
semantics.  Since the tail `(.*?)(…|\Z)` always matches once the delimiter
part has matched, a match attempt at a position succeeds exactly when some
name alternative matches there followed by a parsable `\s*[:\-\n]\s*`. -/

/-- Length of the leading Python-whitespace run. -/
def wsRun : Text → Nat
  | [] => 0
  | c :: r => if isPySpace c then wsRun r + 1 else 0

/-- Largest index `i < m` with `t[i] = '\n'` (backtracking of the first `\s*`). -/
def lastNewlineBelow (t : Text) : Nat → Option Nat
  | 0 => none
  | m + 1 => if t.getD m ' ' = '\n' then some m else lastNewlineBelow t m

/-- Index of the delimiter character chosen by `\s*[:\-\n]\s*` with the first
`\s*` greedy: the end of the whitespace run if a `:` or `-` follows it,
otherwise the last newline inside the run. -/
def delimIdx (t : Text) : Option Nat :=
  let m := wsRun t
  let c := t.getD m ' '
  if c = ':' || c = '-' then some m else lastNewlineBelow t m

/-- Parse `\s*[:\-\n]\s*` at the head of `t`; on success return the suffix where
the lazy content group starts (the second `\s*` is greedy). -/
def afterDelim (t : Text) : Option Text :=
  (delimIdx t).map (fun i =>
    let rest := t.drop (i + 1)
    rest.drop (wsRun rest))

/-- `[^\n]{0,k}:` at the head of `t`: an optional run of at most `k`
non-newline characters followed by a colon. -/
def colonSearch : Nat → Text → Bool
  | _, [] => false
  | k, c :: rest =>
    if c = ':' then true
    else if c = '\n' then false
    else match k with
      | 0 => false
      | k' + 1 => colonSearch k' rest

/-- `[A-Z]` under `re.I` (ASCII letters). -/
def isHeadingLetter (c : Char) : Bool :=
  ('A' ≤ c && c ≤ 'Z') || ('a' ≤ c && c ≤ 'z')

/-- The content terminator `(\n[A-Z][^\n]{0,80}:|\Z)` holds at this suffix. -/
def termAt : Text → Bool
  | [] => true
  | '\n' :: c :: rest2 => isHeadingLetter c && colonSearch 80 rest2
  | _ => false

/-- The lazy group `(.*?)`: the shortest content after which the terminator
matches. -/
def takeUntilTerm : Text → Text
  | [] => []
  | l@(c :: rest) => if termAt l then [] else c :: takeUntilTerm rest

/-- Try the name alternatives in order at this suffix; on the first name that
matches (case-insensitively) and is followed by a parsable delimiter, return
the content group. -/
def matchAt (names : List Text) (t : Text) : Option Text :=
  match names with
  | [] => none
  | n :: ns =>
    if begWith (lowerT n) (lowerT t) then
      match afterDelim (t.drop n.length) with
      | some rest => some (takeUntilTerm rest)
      | none => matchAt ns t
    else matchAt ns t

/-- `re.search`: try every start position left to right. -/
def searchLoop (names : List Text) : Text → Option Text
  | [] => matchAt names []
  | t@(_ :: rest) => (matchAt names t) <|> searchLoop names rest

/-- `extract_section(text, names, window_chars)` from `app.py` lines 181-192;
`names` is the alternation split into its alternatives. -/
def extract_section (text : Text) (names : List Text) (window_chars : Nat := 800) :
    Text :=
  if text = [] then []
  else
    match searchLoop names text with
    | some content => (strip content).take window_chars
    | none => []

/-! ## Template binder (docx replacement helpers)

A docx document is modelled by the observable text of its parts: top-level
paragraphs, tables (rows of cells of paragraphs), and per-section
header/footer paragraphs and tables.  `_set_paragraph_text` only rewrites a
paragraph's runs, so at the text level it is plain replacement. -/

/-- A table: rows of cells, each cell a list of paragraph texts. -/
abbrev Table := List (List (List Text))

/-- One document section's header and footer content. -/
structure Sect where
  hdrParas : List Text
  hdrTables : List Table
  ftrParas : List Text
  ftrTables : List Table
deriving DecidableEq

/-- The observable text tree of a docx document. -/
structure Docx where
  paras : List Text
  tables : List Table
  sects : List Sect
deriving DecidableEq

/-- `re.search(r'\[([^\]]*)\]', t)` succeeds: some `[` with a later `]`. -/
def hasBracketTok (t : Text) : Bool :=
  match splitAtFirst '[' t with
  | none => false
  | some (_, rest) => (splitAtFirst ']' rest).isSome

/-- `re.sub(r'\[([^\]]*)\]', repl, t, count=1)`: replace the first bracketed
token (the leftmost `[` up to the first `]` after it). -/
def replFirstBracketStar (t repl : Text) : Text :=
  match splitAtFirst '[' t with
  | none => t
  | some (pre, rest) =>
    match splitAtFirst ']' rest with
    | none => t
    | some (_, post) => pre ++ repl ++ post

/-- `_replace_in_paragraph_by_label` from `app.py` lines 203-224: `none` for
`False` (label absent), `some newText` for `True` with the rewritten text. -/
def replace_in_paragraph_by_label (p label replacement : Text) : Option Text :=
  if containsCI p label then
    if hasBracketTok p then some (replFirstBracketStar p replacement)
    else
      match splitAtFirst ':' p with
      | some (left, _) => some (rstrip left ++ ':' :: ' ' :: replacement)
      | none => some replacement
  else none

/-- The paragraph loop of `_replace_in_doc`: rewrite the first matching
paragraph only and stop. -/
def replaceInParagraphs (label repl : Text) : List Text → Option (List Text)
  | [] => none
  | p :: ps =>
    match replace_in_paragraph_by_label p label repl with
    | some p2 => some (p2 :: ps)
    | none => (replaceInParagraphs label repl ps).map (p :: ·)

/-- Apply the paragraph replacement, keeping an unmatched paragraph as is. -/
def replacePara (label repl p : Text) : Text × Bool :=
  match replace_in_paragraph_by_label p label repl with
  | some p2 => (p2, true)
  | none => (p, false)

/-- `_replace_in_table` from `app.py` lines 226-233: every matching cell
paragraph of the table is rewritten (no early stop). -/
def replace_in_table (t : Table) (label repl : Text) : Table × Bool :=
  let rows := t.map (fun row => row.map (fun cell => cell.map (replacePara label repl)))
  (rows.map (fun row => row.map (fun cell => cell.map Prod.fst)),
   rows.any (fun row => row.any (fun cell => cell.any Prod.snd)))

/-- The table loop of `_replace_in_doc`: stop at the first table that had any
match, after rewriting all its matching cells. -/
def replaceFirstTable (label repl : Text) : List Table → Option (List Table)
  | [] => none
  | t :: ts =>
    let r := replace_in_table t label repl
    if r.2 then some (r.1 :: ts)
    else (replaceFirstTable label repl ts).map (t :: ·)

/-- One section's part of `_replace_in_headers_footers`. -/
def replaceInSect (s : Sect) (label repl : Text) : Sect × Bool :=
  let hp := s.hdrParas.map (replacePara label repl)
  let ht := s.hdrTables.map (fun t => replace_in_table t label repl)
  let fp := s.ftrParas.map (replacePara label repl)
  let ft := s.ftrTables.map (fun t => replace_in_table t label repl)
  (⟨hp.map Prod.fst, ht.map Prod.fst, fp.map Prod.fst, ft.map Prod.fst⟩,
   hp.any Prod.snd || ht.any Prod.snd || fp.any Prod.snd || ft.any Prod.snd)

/-- `_replace_in_headers_footers` from `app.py` lines 235-255: all sections
processed, all matches rewritten. -/
def replace_in_headers_footers (ss : List Sect) (label repl : Text) :
    List Sect × Bool :=
  let l := ss.map (fun s => replaceInSect s label repl)
  (l.map Prod.fst, l.any Prod.snd)

/-- `_replace_in_doc` from `app.py` lines 257-266. -/
def replace_in_doc (d : Docx) (label repl : Text) : Docx × Bool :=
  match replaceInParagraphs label repl d.paras with
  | some ps2 => ({ d with paras := ps2 }, true)
  | none =>
    match replaceFirstTable label repl d.tables with
    | some ts2 => ({ d with tables := ts2 }, true)
    | none =>
      let r := replace_in_headers_footers d.sects label repl
      ({ d with sects := r.1 }, r.2)

/-- The `label_variants` dictionary from `app.py` lines 284-297, in insertion
order. -/
def label_variants : List (Text × List Text) :=
  [("lesson_title".toList,
    ["lesson plant".toList, "lesson plan".toList, "lesson title".toList,
     "chapter name".toList]),
   ("grade".toList, ["grade".toList]),
   ("subject".toList, ["subject".toList]),
   ("teacher_name".toList, ["teacher name".toList, "teacher".toList]),
   ("date".toList, ["date".toList]),
   ("objectives".toList,
    ["lesson objectives".toList, "lesson objective".toList, "objectives".toList]),
   ("resources".toList,
    ["resource needed".toList, "resources".toList, "materials".toList]),
   ("outline".toList, ["lesson outline".toList, "lesson outline:".toList]),
   ("assessment".toList,
    ["assessment and evaluation".toList, "assessment".toList, "evaluation".toList]),
   ("homework".toList,
    ["homework/extension activity".toList, "homework".toList,
     "extension activity".toList, "assignment".toList]),
   ("conclusion".toList, ["conclusion".toList, "summary".toList]),
   ("note".toList, ["note for teacher".toList, "note".toList, "notes".toList])]

/-- Dictionary lookup on an association list (Python `key in d` / `d.get(key)`). -/
def mlookup : List (Text × Text) → Text → Option Text
  | [], _ => none
  | (k, v) :: rest, key => if k = key then some v else mlookup rest key

/-- `for var in variants: if _replace_in_doc(...): break`. -/
def applyVariants (d : Docx) (repl : Text) : List Text → Docx
  | [] => d
  | v :: vs =>
    let r := replace_in_doc d v repl
    if r.2 then r.1 else applyVariants r.1 repl vs

/-- The per-field label pass of `fill_template_and_send_bracketed`
(`app.py` lines 300-306); `mapping.get(key) or ""` is the value itself for a
string-valued mapping. -/
def labelPass (d : Docx) (mapping : List (Text × Text)) : Docx :=
  label_variants.foldl (fun dacc kv =>
    match mlookup mapping kv.1 with
    | none => dacc
    | some v => applyVariants dacc v kv.2) d

/-- Longest run of non-`]` characters and the rest. -/
def takeNonRB : Text → Text × Text
  | [] => ([], [])
  | c :: rest =>
    if c = ']' then ([], c :: rest)
    else
      let r := takeNonRB rest
      (c :: r.1, r.2)

/-- `bracket_pattern.sub(repl_fn, text)` for `\[([^\]]+)\]` with the popping
replacement function of the second pass: each bracketed token with non-empty
content consumes the next queued value; once the queue is empty the token is
left in place.  The scan consumes at least one character per step, so it is
written structurally on a fuel bounded below by the text length. -/
def subBracketsQueueF : Nat → Text → List Text → Text × List Text
  | 0, t, q => (t, q)
  | fuel + 1, t, q =>
    match t with
    | [] => ([], q)
    | '[' :: rest =>
      match takeNonRB rest with
      | (run, ']' :: rem2) =>
        if run = [] then
          let r := subBracketsQueueF fuel rest q
          ('[' :: r.1, r.2)
        else
          match q with
          | [] =>
            let r := subBracketsQueueF fuel rem2 q
            ('[' :: run ++ ']' :: r.1, r.2)
          | v :: qtail =>
            let r := subBracketsQueueF fuel rem2 qtail
            (v ++ r.1, r.2)
      | (_, _) =>
        let r := subBracketsQueueF fuel rest q
        ('[' :: r.1, r.2)
    | c :: rest =>
      let r := subBracketsQueueF fuel rest q
      (c :: r.1, r.2)

/-- The bracket-substitution scan at full fuel. -/
def subBracketsQueue (t : Text) (q : List Text) : Text × List Text :=
  subBracketsQueueF t.length t q

/-- The fallback loop over `doc.paragraphs`, threading the leftover queue. -/
def subParas : List Text → List Text → List Text × List Text
  | [], q => ([], q)
  | p :: ps, q =>
    let r := subBracketsQueue p q
    let rs := subParas ps r.2
    (r.1 :: rs.1, rs.2)

/-- The bracket-token fallback pass of `fill_template_and_send_bracketed`
(`app.py` lines 308-317): `leftover_values` are all non-empty mapping values. -/
def bracketFallback (d : Docx) (mapping : List (Text × Text)) : Docx :=
  let leftover_values := (mapping.filter (fun kv => !kv.2.isEmpty)).map Prod.snd
  if leftover_values.isEmpty then d
  else { d with paras := (subParas d.paras leftover_values).1 }

/-- The document transformation of `fill_template_and_send_bracketed`
(`app.py` lines 269-317): the per-field label pass followed by the bracket
fallback.  Template loading and sending are transport I/O, outside the model. -/
def fill_template_and_send_bracketed (d : Docx) (mapping : List (Text × Text)) :
    Docx :=
  bracketFallback (labelPass d mapping) mapping

/-! ## Text normalizers -/

/-- Join with a multi-character separator. -/
def joinSepT (sep : Text) : List Text → Text
  | [] => []
  | [x] => x
  | x :: xs => x ++ sep ++ joinSepT sep xs

/-- `extract_text_from_pdf` from `app.py` lines 83-98: `pages` holds each
page's `page.extract_text()` result (empty for a blank page or a page whose
extraction raised, both skipped); the parts are joined with newlines. -/
def extract_text_from_pdf (pages : List Text) : Text :=
  joinSep '\n' (pages.filter (fun t => !t.isEmpty))

/-- `extract_text_from_url` from `app.py` lines 100-128.  The HTML parsing is
external (BeautifulSoup): `article` is the `<article>` text when present,
`pblocks` the stripped `<p>`-block texts, `title` and `meta` the stripped
title and meta description. -/
def extract_text_from_url (article : Option Text) (pblocks : List Text)
    (title meta : Text) (max_chars : Nat := 20000) : Text :=
  let text :=
    match article with
    | some a => a
    | none =>
      joinSepT "\n\n".toList
        (pblocks.filter (fun t => !t.isEmpty && !decide (t.length < 30)))
  let text2 :=
    if text.isEmpty || (strip text).length < 100 then strip (title ++ '\n' :: meta)
    else text
  text2.take max_chars

/-! ## Conversation controller

The non-admin text/document/photo flow of `webhook` (`app.py` lines 352-716),
restricted to its session-state effect: which state is entered and which keys
are written into `SESS[chat_id]["tmp"]`.  Replies and the pipeline invocations
are transport I/O; an inbound event is a text message, a document upload
(identified by file name), or a photo. -/

/-- The state tags stored in `SESS[chat_id]["state"]` by the user flow. -/
inductive CState
  | idle | awaitPdf | awaitText | awaitGrade | awaitSubject | awaitChapter
  | confirmFromText
deriving DecidableEq

/-- Per-conversation session: state tag and the `tmp` metadata dictionary. -/
structure Sess where
  state : CState
  tmp : List (Text × Text)
deriving DecidableEq

/-- One inbound update: a text message, a document with a file name, or a
photo. -/
inductive CEvent
  | msgText (t : Text)
  | msgDoc (fname : Text)
  | msgPhoto

/-- Python dict update `d[k] = v` (replace in place, or append a new key). -/
def tmpSet (tmp : List (Text × Text)) (k v : Text) : List (Text × Text) :=
  if (mlookup tmp k).isSome then
    tmp.map (fun kv => if kv.1 = k then (k, v) else kv)
  else tmp ++ [(k, v)]

/-- Python `str.endswith`. -/
def endsWith (suffix t : Text) : Bool := begWith suffix.reverse t.reverse

/-- Initial session created by `SESS.setdefault`: idle with empty `tmp`. -/
def initSess : Sess := ⟨CState.idle, []⟩

/-- One `webhook` invocation for a non-admin chat, as a transition on the
session.  Branches follow the source order: admin CLI commands (answered
`Unauthorized`, no state change), `/hi_rise` reset, the idle options, document
and photo handling, then the per-state text handlers;
"assemble and bind" transitions return to idle. -/
def step (s : Sess) (e : CEvent) : Sess :=
  match e with
  | CEvent.msgText t =>
    let txt := strip t
    if begWith "/admin".toList txt || begWith "/settarget".toList txt
        || begWith "/showtarget".toList txt || begWith "/sendtarget".toList txt then
      s
    else if lowerT txt = "/hi_rise".toList then ⟨CState.idle, []⟩
    else if s.state = CState.idle ∧ txt = "Upload PDF".toList then
      ⟨CState.awaitPdf, s.tmp⟩
    else if s.state = CState.idle ∧ txt = "Paste Text".toList then
      ⟨CState.awaitText, s.tmp⟩
    else if s.state = CState.idle ∧ txt = "Ask Bot to Find Lesson".toList then
      ⟨CState.awaitGrade, s.tmp⟩
    else if s.state = CState.idle ∧ 120 < txt.length then
      ⟨CState.confirmFromText, tmpSet s.tmp "text_candidate".toList txt⟩
    else
      match s.state with
      | CState.confirmFromText => ⟨CState.idle, s.tmp⟩
      | CState.awaitText => ⟨CState.idle, s.tmp⟩
      | CState.awaitGrade => ⟨CState.awaitSubject, [("grade".toList, txt)]⟩
      | CState.awaitSubject => ⟨CState.awaitChapter, tmpSet s.tmp "subject".toList txt⟩
      | CState.awaitChapter => ⟨CState.idle, tmpSet s.tmp "chapter".toList txt⟩
      | _ => s
  | CEvent.msgDoc fname =>
    if endsWith ".docx".toList (lowerT fname) then ⟨CState.idle, s.tmp⟩
    else if endsWith ".pdf".toList (lowerT fname) ∧ s.state = CState.awaitPdf then
      ⟨CState.idle, s.tmp⟩
    else ⟨CState.idle, s.tmp⟩
  | CEvent.msgPhoto => s

/-- The session after a sequence of inbound events for one fresh chat. -/
def runFlow (evs : List CEvent) : Sess := evs.foldl step initSess

/-- Keys of a `tmp` dictionary. -/
def keysOf (tmp : List (Text × Text)) : List Text := tmp.map Prod.fst

/-! ## FieldSet assembler -/

/-- Heading alternation `"Resource|Resources|Materials"`. -/
def resourceNames : List Text :=
  ["Resource".toList, "Resources".toList, "Materials".toList]

/-- Heading alternation `"Homework|Extension Activity|Assignment"`. -/
def homeworkNames : List Text :=
  ["Homework".toList, "Extension Activity".toList, "Assignment".toList]

/-- Heading alternation `"Conclusion|Summary|Summing up"`. -/
def conclusionNames : List Text :=
  ["Conclusion".toList, "Summary".toList, "Summing up".toList]

/-- Heading alternation `"Note for Teacher|Teacher Note|Notes"`. -/
def noteNames : List Text :=
  ["Note for Teacher".toList, "Teacher Note".toList, "Notes".toList]

/-- The canonical field names, in the mapping's insertion order. -/
def twelveKeys : List Text :=
  ["lesson_title".toList, "grade".toList, "subject".toList, "teacher_name".toList,
   "date".toList, "objectives".toList, "resources".toList, "outline".toList,
   "assessment".toList, "homework".toList, "conclusion".toList, "note".toList]

/-- The nine heuristic entries shared by all three assembly sites. -/
def heuristicEntries (tr : TextRankFn) (text : Text) : List (Text × Text) :=
  [("objectives".toList, extract_objectives_from_text tr text),
   ("resources".toList, extract_section text resourceNames),
   ("outline".toList, summarize_text tr text 8),
   ("assessment".toList, generate_assessment_questions tr text),
   ("homework".toList, extract_section text homeworkNames),
   ("conclusion".toList, extract_section text conclusionNames),
   ("note".toList, extract_section text noteNames)]

/-- The `mapping` built on the PDF path (`app.py` lines 552-565);
`tmp.get("chapter_title") or "Lesson"` defaults both a missing and an empty
title. -/
def assembledMappingPdf (tr : TextRankFn) (tmp : List (Text × Text))
    (pdf_text : Text) : List (Text × Text) :=
  let title :=
    match mlookup tmp "chapter_title".toList with
    | some t => if t.isEmpty then "Lesson".toList else t
    | none => "Lesson".toList
  [("lesson_title".toList, title),
   ("grade".toList, (mlookup tmp "grade".toList).getD []),
   ("subject".toList, (mlookup tmp "subject".toList).getD []),
   ("teacher_name".toList, (mlookup tmp "teacher".toList).getD []),
   ("date".toList, (mlookup tmp "date".toList).getD [])]
  ++ heuristicEntries tr pdf_text

/-- The `mapping` built on the pasted-text paths (`app.py` lines 598-611 and
632-645); `tmp.get("chapter_title", "Pasted Lesson")` defaults only a missing
title. -/
def assembledMappingPasted (tr : TextRankFn) (tmp : List (Text × Text))
    (text : Text) : List (Text × Text) :=
  [("lesson_title".toList,
    (mlookup tmp "chapter_title".toList).getD "Pasted Lesson".toList),
   ("grade".toList, (mlookup tmp "grade".toList).getD []),
   ("subject".toList, (mlookup tmp "subject".toList).getD []),
   ("teacher_name".toList, (mlookup tmp "teacher".toList).getD []),
   ("date".toList, (mlookup tmp "date".toList).getD [])]
  ++ heuristicEntries tr text

/-- The `mapping` built on the web-search path (`app.py` lines 695-708):
title from the chapter text just stored at line 663 (always a string there),
teacher and date hardcoded empty. -/
def assembledMappingWeb (tr : TextRankFn) (chapter : Text)
    (tmp : List (Text × Text)) (big_text : Text) : List (Text × Text) :=
  [("lesson_title".toList, chapter),
   ("grade".toList, (mlookup tmp "grade".toList).getD []),
   ("subject".toList, (mlookup tmp "subject".toList).getD []),
   ("teacher_name".toList, []),
   ("date".toList, [])]
  ++ heuristicEntries tr big_text

/-! ## Helper lemmas -/

theorem begWith_append {n h : Text} (t : Text) (hb : begWith n h = true) :
    begWith n (h ++ t) = true := by
  induction n generalizing h with
  | nil => simp [begWith]
  | cons a as ih =>
    cases h with
    | nil => simp [begWith] at hb
    | cons b bs =>
      simp only [begWith, Bool.and_eq_true] at hb ⊢
      exact ⟨hb.1, ih hb.2⟩

theorem hasSub_nil_left (t : Text) : hasSub [] t = true := by
  cases t <;> simp [hasSub, begWith]

theorem hasSub_append {n h : Text} (t : Text) (hs : hasSub n h = true) :
    hasSub n (h ++ t) = true := by
  induction h with
  | nil =>
    simp only [hasSub] at hs
    cases n with
    | nil => simpa using hasSub_nil_left t
    | cons a as => simp [begWith] at hs
  | cons c hs' ih =>
    simp only [hasSub, Bool.or_eq_true] at hs ⊢
    rcases hs with hb | hrest
    · exact Or.inl (begWith_append t hb)
    · exact Or.inr (ih hrest)

theorem splitAtFirst_eq_none {c : Char} {t : Text} (h : c ∉ t) :
    splitAtFirst c t = none := by
  induction t with
  | nil => rfl
  | cons d rest ih =>
    simp only [List.mem_cons, not_or] at h
    simp [splitAtFirst, Ne.symm h.1, ih h.2]

theorem splitAtFirst_append {c : Char} {l : Text} (r : Text) (h : c ∉ l) :
    splitAtFirst c (l ++ c :: r) = some (l, r) := by
  induction l with
  | nil => simp [splitAtFirst]
  | cons d rest ih =>
    simp only [List.mem_cons, not_or] at h
    simp [splitAtFirst, Ne.symm h.1, ih h.2]

theorem mlookup_isSome_eq (l : List (Text × Text)) (k : Text) :
    (mlookup l k).isSome = decide (k ∈ keysOf l) := by
  induction l with
  | nil => simp [mlookup, keysOf]
  | cons kv rest ih =>
    by_cases h : kv.1 = k
    · cases kv
      simp_all [mlookup, keysOf]
    · cases kv
      simp_all [mlookup, keysOf, Ne.symm h]

/-! ## Claim theorems -/

/-- A degenerate TextRank behaviour: the summarization call raises, as for
input the `english` punkt tokenizer cannot process; `summarize_text` then
takes its line-based fallback. -/
def trRaises : TextRankFn := fun _ _ => none

/-- Claim C8: on `"Resources: pencil, paper\nHomework: read ch.2"`, the
labeled-section extractor yields `"pencil, paper"` for the alternation
`Resources|Resource|Materials` (content stops before the next heading line)
and `"read ch.2"` for `Homework|Assignment`. -/
theorem claim_C8 :
    extract_section "Resources: pencil, paper\nHomework: read ch.2".toList
      ["Resources".toList, "Resource".toList, "Materials".toList]
      = "pencil, paper".toList
    ∧ extract_section "Resources: pencil, paper\nHomework: read ch.2".toList
      ["Homework".toList, "Assignment".toList]
      = "read ch.2".toList := by
  constructor
  · decide
  · decide

/-- Claim C9: for every input text of length 0 the summarizer returns the
empty output, for every requested sentence count and every behaviour of the
external TextRank call. -/
theorem claim_C9 (tr : TextRankFn) (text : Text) (count : Nat)
    (h : text.length = 0) : summarize_text tr text count = [] := by
  have he : text = [] := List.length_eq_zero.mp h
  subst he
  rfl

theorem claim_C9_witness : summarize_text trRaises [] 6 = [] :=
  claim_C9 trRaises [] 6 rfl

/-- Claim C10 (implicit): the assessment generator numbers questions by the
sentence's position in the 4-sentence summary before the under-3-words filter,
so for an input whose summary starts with a 2-word sentence the output starts
at `Q2`, not `Q1`: witnessed on a two-line text under the line-based
summarizer fallback. -/
theorem claim_C10 :
    generate_assessment_questions trRaises
        "Hi there\nStudents will learn about the water cycle today".toList
      = "Q2. Explain: Students will learn about the water cycle today?".toList
    ∧ wordCount (strip ((splitOn '\n'
        (summarize_text trRaises
          "Hi there\nStudents will learn about the water cycle today".toList 4)).headD []))
      < 3
    ∧ hasSub "Q1".toList
        "Q2. Explain: Students will learn about the water cycle today?".toList
      = false := by
  refine ⟨by decide, by decide, by decide⟩

/-- Claim C4 counterexample: a PDF whose single page extracts to 20001
characters produces a text longer than 20000 — `extract_text_from_pdf`
performs no truncation. -/
theorem claim_C4_counterexample :
    20000 < (extract_text_from_pdf ['a' :: List.replicate 20000 'a']).length := by
  have h : extract_text_from_pdf ['a' :: List.replicate 20000 'a']
      = 'a' :: List.replicate 20000 'a' := rfl
  rw [h]
  simp only [List.length_cons, List.length_replicate]
  omega

/-- Claim C4 amended: only the per-source web extraction is capped — for
every parsed page, `extract_text_from_url` returns at most 20000 characters;
PDF extraction (and hence pasted text and the web aggregate) has no cap. -/
theorem claim_C4_amended (article : Option Text) (pblocks : List Text)
    (title meta : Text) :
    (extract_text_from_url article pblocks title meta).length ≤ 20000 := by
  simp only [extract_text_from_url]
  split <;> exact (List.length_take_le _ _)

/-- A full `ExtractedFields` mapping with `grade = "6"` and every other slot
empty. -/
def mGradeOnly : List (Text × Text) :=
  [("lesson_title".toList, []), ("grade".toList, "6".toList),
   ("subject".toList, []), ("teacher_name".toList, []), ("date".toList, []),
   ("objectives".toList, []), ("resources".toList, []), ("outline".toList, []),
   ("assessment".toList, []), ("homework".toList, []), ("conclusion".toList, []),
   ("note".toList, [])]

/-- A full `ExtractedFields` mapping with every slot empty. -/
def mAllEmpty : List (Text × Text) :=
  [("lesson_title".toList, []), ("grade".toList, []),
   ("subject".toList, []), ("teacher_name".toList, []), ("date".toList, []),
   ("objectives".toList, []), ("resources".toList, []), ("outline".toList, []),
   ("assessment".toList, []), ("homework".toList, []), ("conclusion".toList, []),
   ("note".toList, [])]

/-- A template whose only content is one table with the label `Grade:` in two
cells. -/
def docRepeatTable : Docx :=
  ⟨[], [[[["Grade: [a]".toList], ["Grade: [b]".toList]]]], []⟩

/-- Claim C1 counterexample: with the `Grade:` label repeated in two table
cells, binding `grade = "6"` rewrites BOTH occurrences — the table walk of
`_replace_in_table` has no early stop, so the second occurrence is not left
as `Grade: [b]`. -/
theorem claim_C1_counterexample :
    (fill_template_and_send_bracketed docRepeatTable mGradeOnly).tables
      = [[[["Grade: 6".toList], ["Grade: 6".toList]]]]
    ∧ "Grade: 6".toList ≠ "Grade: [b]".toList := by
  refine ⟨by decide, by decide⟩

/-- A template with a labeled bracket paragraph and a second, unlabeled
bracket paragraph. -/
def docLabelPlusBracket : Docx :=
  ⟨["Grade: [g]".toList, "Extra [x]".toList], [], []⟩

/-- Claim C2 counterexample: the value `"6"` is consumed by the `grade` label
match in the first paragraph, yet the bracket fallback places the same value
again into the remaining bracket token — `leftover_values` keeps all
non-empty values, with no record of label consumption. -/
theorem claim_C2_counterexample :
    replace_in_paragraph_by_label "Grade: [g]".toList "grade".toList "6".toList
      = some "Grade: 6".toList
    ∧ (fill_template_and_send_bracketed docLabelPlusBracket mGradeOnly).paras
      = ["Grade: 6".toList, "Extra 6".toList] := by
  refine ⟨by decide, by decide⟩

/-- A template with a single labeled bracket paragraph. -/
def docGradeBracket : Docx := ⟨["Grade: [g]".toList], [], []⟩

/-- Claim C3 counterexample: every field of the mapping is the empty string,
yet the binder still rewrites the `Grade:` paragraph, erasing its bracket
token — the label pass has no non-empty guard. -/
theorem claim_C3_counterexample :
    (fill_template_and_send_bracketed docGradeBracket mAllEmpty).paras
      = ["Grade: ".toList]
    ∧ "Grade: ".toList ≠ "Grade: [g]".toList := by
  refine ⟨by decide, by decide⟩

/-- A template with a labeled bracket paragraph and no colon. -/
def docGradeNoColon : Docx := ⟨["Grade [x]".toList], [], []⟩

/-- Claim C5 counterexample: binding `grade = "6"` once yields `Grade 6`;
rebinding the result with the same fields overwrites the whole paragraph to
`6` (no bracket and no colon remain), so the observable text changes. -/
theorem claim_C5_counterexample :
    (fill_template_and_send_bracketed docGradeNoColon mGradeOnly).paras
      = ["Grade 6".toList]
    ∧ (fill_template_and_send_bracketed
        (fill_template_and_send_bracketed docGradeNoColon mGradeOnly)
        mGradeOnly).paras
      = ["6".toList]
    ∧ "6".toList ≠ "Grade 6".toList := by
  refine ⟨by decide, by decide, by decide⟩

/-- Claim C1 amended: the single-replacement policy does hold for top-level
paragraphs — when the paragraph walk of `_replace_in_doc` reports a
replacement, exactly one paragraph changed, it is the first one containing
the label, and every paragraph before it was left alone. -/
theorem claim_C1_amended (label repl : Text) (ps ps2 : List Text)
    (h : replaceInParagraphs label repl ps = some ps2) :
    ∃ pre p p2 post, ps = pre ++ p :: post ∧ ps2 = pre ++ p2 :: post
      ∧ (∀ q ∈ pre, replace_in_paragraph_by_label q label repl = none)
      ∧ replace_in_paragraph_by_label p label repl = some p2 := by
  induction ps generalizing ps2 with
  | nil => simp [replaceInParagraphs] at h
  | cons p ps ih =>
    rw [replaceInParagraphs] at h
    cases hrep : replace_in_paragraph_by_label p label repl with
    | some p2' =>
      rw [hrep] at h
      injection h with h
      exact ⟨[], p, p2', ps, rfl, by simp [← h], by simp, hrep⟩
    | none =>
      rw [hrep] at h
      cases hr : replaceInParagraphs label repl ps with
      | none => rw [hr] at h; simp at h
      | some ps2' =>
        rw [hr] at h
        simp only [Option.map_some'] at h
        injection h with h
        obtain ⟨pre, q, q2, post, h1, h2, h3, h4⟩ := ih ps2' hr
        refine ⟨p :: pre, q, q2, post, by simp [h1], by simp [← h, h2], ?_, h4⟩
        intro x hx
        rcases List.mem_cons.mp hx with rfl | hx'
        · exact hrep
        · exact h3 x hx'

theorem claim_C1_amended_witness :
    ∃ pre p p2 post,
      (["x".toList, "Grade: [g]".toList, "Grade: [h]".toList] : List Text)
        = pre ++ p :: post
      ∧ (["x".toList, "Grade: 6".toList, "Grade: [h]".toList] : List Text)
        = pre ++ p2 :: post
      ∧ (∀ q ∈ pre, replace_in_paragraph_by_label q "grade".toList "6".toList = none)
      ∧ replace_in_paragraph_by_label p "grade".toList "6".toList = some p2 :=
  claim_C1_amended "grade".toList "6".toList
    ["x".toList, "Grade: [g]".toList, "Grade: [h]".toList]
    ["x".toList, "Grade: 6".toList, "Grade: [h]".toList] (by decide)

/-- A template using only bracket placeholders and no recognizable labels. -/
def docTwoBrackets : Docx := ⟨["[p]".toList, "[q]".toList], [], []⟩

/-- A full mapping with non-empty `grade` and `subject` and every other slot
empty. -/
def mGradeSubject (a b : Text) : List (Text × Text) :=
  [("lesson_title".toList, []), ("grade".toList, a), ("subject".toList, b),
   ("teacher_name".toList, []), ("date".toList, []), ("objectives".toList, []),
   ("resources".toList, []), ("outline".toList, []), ("assessment".toList, []),
   ("homework".toList, []), ("conclusion".toList, []), ("note".toList, [])]

/-- Claim C2 amended: the second pass fills the remaining bracket tokens in
document order with ALL non-empty field values in the mapping's iteration
order, regardless of label consumption (the counterexample shows a consumed
value reused) — for a bracket-only template the first bracket receives the
first non-empty value and the second the next, for every pair of non-empty
values. -/
theorem claim_C2_amended (c d : Char) (a b : Text) :
    (bracketFallback docTwoBrackets (mGradeSubject (c :: a) (d :: b))).paras
      = [c :: a, d :: b] := by
  show [(c :: a) ++ [], (d :: b) ++ []] = [c :: a, d :: b]
  simp

/-- Claim C3 amended: whenever a label variant occurs in a paragraph, the
binder rewrites that paragraph even for an empty field value — the label
pass has no non-empty guard, so the rewrite (bracket erased, text after the
colon dropped, or paragraph overwritten) always reports success. -/
theorem claim_C3_amended (ptext label : Text)
    (h : containsCI ptext label = true) :
    (replace_in_paragraph_by_label ptext label []).isSome = true := by
  simp only [replace_in_paragraph_by_label, h, if_true]
  split
  · rfl
  · split <;> rfl

theorem claim_C3_amended_witness :
    (replace_in_paragraph_by_label "Grade: [g]".toList "grade".toList []).isSome
      = true :=
  claim_C3_amended "Grade: [g]".toList "grade".toList (by decide)

/-- Claim C5 amended: rebinding IS a no-op for a paragraph already filled
through the colon rule — if the label occurs in the (stripped) text left of
the colon and no bracket token can form, replacing again with the same value
returns the paragraph unchanged.  (In general rebinding is not idempotent;
see the counterexample.) -/
theorem claim_C5_amended (left v label : Text)
    (hlab : containsCI left label = true)
    (hrs : rstrip left = left)
    (hc : ':' ∉ left) (hbl : '[' ∉ left) (hbv : '[' ∉ v) :
    replace_in_paragraph_by_label (left ++ ':' :: ' ' :: v) label v
      = some (left ++ ':' :: ' ' :: v) := by
  have hci : containsCI (left ++ ':' :: ' ' :: v) label = true := by
    unfold containsCI lowerT at hlab ⊢
    rw [List.map_append]
    exact hasSub_append _ hlab
  have hnb : '[' ∉ (left ++ ':' :: ' ' :: v) := by
    simp only [List.mem_append, List.mem_cons, not_or]
    exact ⟨hbl, by decide, by decide, hbv⟩
  have hbrk : hasBracketTok (left ++ ':' :: ' ' :: v) = false := by
    unfold hasBracketTok
    rw [splitAtFirst_eq_none hnb]
  have hsplit : splitAtFirst ':' (left ++ ':' :: ' ' :: v) = some (left, ' ' :: v) :=
    splitAtFirst_append _ hc
  simp only [replace_in_paragraph_by_label, hci, if_true, hbrk,
    Bool.false_eq_true, if_false, hsplit]
  rw [hrs]

theorem claim_C5_amended_witness :
    replace_in_paragraph_by_label "Grade: 6".toList "grade".toList "6".toList
      = some "Grade: 6".toList :=
  claim_C5_amended "Grade".toList "6".toList "grade".toList
    (by decide) (by decide) (by decide) (by decide) (by decide)

/-- The five session-metadata keys the spec claims the conversational flow
populates and the assembler consumes. -/
def claimedSessionKeys : List Text :=
  ["grade".toList, "subject".toList, "teacher".toList, "date".toList,
   "chapter_title".toList]

/-- The `tmp` keys the webhook flow actually writes (lines 506, 651, 657,
663 of `app.py`). -/
def flowWritableKeys : List Text :=
  ["text_candidate".toList, "grade".toList, "subject".toList, "chapter".toList]

theorem keysOf_tmpSet (tmp : List (Text × Text)) (k v k2 : Text)
    (h : k2 ∈ keysOf (tmpSet tmp k v)) : k2 = k ∨ k2 ∈ keysOf tmp := by
  unfold tmpSet at h
  split at h
  · simp only [keysOf, List.map_map, List.mem_map, Function.comp] at h
    obtain ⟨kv, hkv, hk2⟩ := h
    by_cases he : kv.1 = k
    · rw [if_pos he] at hk2
      exact Or.inl hk2.symm
    · rw [if_neg he] at hk2
      exact Or.inr (hk2 ▸ List.mem_map_of_mem Prod.fst hkv)
  · rw [keysOf, List.map_append] at h
    rcases List.mem_append.mp h with h1 | h2
    · exact Or.inr h1
    · simp only [List.map_cons, List.map_nil, List.mem_singleton] at h2
      exact Or.inl h2

theorem step_tmp_keys (s : Sess) (e : CEvent)
    (h : ∀ k ∈ keysOf s.tmp, k ∈ flowWritableKeys) :
    ∀ k ∈ keysOf (step s e).tmp, k ∈ flowWritableKeys := by
  intro k hk
  cases e with
  | msgPhoto => exact h k hk
  | msgDoc fname =>
    simp only [step] at hk
    split at hk
    · exact h k hk
    · split at hk
      · exact h k hk
      · exact h k hk
  | msgText t =>
    simp only [step] at hk
    split at hk
    · exact h k hk
    · split at hk
      · simp [keysOf] at hk
      · split at hk
        · exact h k hk
        · split at hk
          · exact h k hk
          · split at hk
            · exact h k hk
            · split at hk
              · rcases keysOf_tmpSet _ _ _ _ hk with rfl | hk2
                · decide
                · exact h k hk2
              · split at hk
                · exact h k hk
                · exact h k hk
                · simp only [keysOf, List.map_cons, List.map_nil,
                    List.mem_singleton] at hk
                  subst hk
                  decide
                · rcases keysOf_tmpSet _ _ _ _ hk with rfl | hk2
                  · decide
                  · exact h k hk2
                · rcases keysOf_tmpSet _ _ _ _ hk with rfl | hk2
                  · decide
                  · exact h k hk2
                · exact h k hk

theorem runFlow_tmp_keys (evs : List CEvent) :
    ∀ k ∈ keysOf (runFlow evs).tmp, k ∈ flowWritableKeys := by
  suffices hgen : ∀ s, (∀ k ∈ keysOf s.tmp, k ∈ flowWritableKeys) →
      ∀ k ∈ keysOf (evs.foldl step s).tmp, k ∈ flowWritableKeys by
    exact hgen initSess (by simp [initSess, keysOf])
  induction evs with
  | nil => intro s hs; simpa using hs
  | cons e evs ih => intro s hs; exact ih (step s e) (step_tmp_keys s e hs)

/-- Claim C6 counterexample: `teacher` is one of the five claimed metadata
keys, yet no sequence of inbound events ever puts it into the session's
`tmp` mapping — the flow only ever writes `text_candidate`, `grade`,
`subject` and `chapter`. -/
theorem claim_C6_counterexample :
    "teacher".toList ∈ claimedSessionKeys
    ∧ ∀ evs : List CEvent,
        decide ("teacher".toList ∈ keysOf (runFlow evs).tmp) = false := by
  refine ⟨by decide, fun evs => ?_⟩
  rw [decide_eq_false_iff_not]
  intro hmem
  exact absurd (runFlow_tmp_keys evs _ hmem) (by decide)

/-- Claim C6 amended: of the five claimed keys only `grade` and `subject`
are ever populated by the conversational flow (the ask-bot path also writes
`chapter`, a key the assemblers read as the web-path title); `teacher`,
`date` and `chapter_title` are consumed by the assembler but never written
in any reachable session. -/
theorem claim_C6_amended :
    (∀ evs : List CEvent,
      decide ("teacher".toList ∈ keysOf (runFlow evs).tmp) = false
      ∧ decide ("date".toList ∈ keysOf (runFlow evs).tmp) = false
      ∧ decide ("chapter_title".toList ∈ keysOf (runFlow evs).tmp) = false)
    ∧ (∃ evs : List CEvent,
        "grade".toList ∈ keysOf (runFlow evs).tmp
        ∧ "subject".toList ∈ keysOf (runFlow evs).tmp
        ∧ "chapter".toList ∈ keysOf (runFlow evs).tmp) := by
  constructor
  · intro evs
    have hinv := runFlow_tmp_keys evs
    refine ⟨?_, ?_, ?_⟩ <;>
      · rw [decide_eq_false_iff_not]
        intro hmem
        exact absurd (hinv _ hmem) (by decide)
  · refine ⟨[CEvent.msgText "Ask Bot to Find Lesson".toList,
             CEvent.msgText "Grade 6".toList,
             CEvent.msgText "Math".toList,
             CEvent.msgText "Ch 1".toList], ?_, ?_, ?_⟩ <;> decide

/-- Claim C7: on all three assembly sites (PDF, pasted text, web search) and
for every session `tmp`, every input text (including the empty text) and
every TextRank behaviour, the assembled mapping has exactly the twelve
canonical keys, and lookup succeeds precisely on those keys — every slot is
present and bound to a string. -/
theorem claim_C7 (tr : TextRankFn) (chapter : Text) (tmp : List (Text × Text))
    (text : Text) :
    keysOf (assembledMappingPdf tr tmp text) = twelveKeys
    ∧ keysOf (assembledMappingPasted tr tmp text) = twelveKeys
    ∧ keysOf (assembledMappingWeb tr chapter tmp text) = twelveKeys
    ∧ (∀ k : Text, (mlookup (assembledMappingPdf tr tmp text) k).isSome
        = decide (k ∈ twelveKeys))
    ∧ (∀ k : Text, (mlookup (assembledMappingPasted tr tmp text) k).isSome
        = decide (k ∈ twelveKeys))
    ∧ (∀ k : Text, (mlookup (assembledMappingWeb tr chapter tmp text) k).isSome
        = decide (k ∈ twelveKeys)) := by
  refine ⟨rfl, rfl, rfl, fun k => ?_, fun k => ?_, fun k => ?_⟩ <;>
    · rw [mlookup_isSome_eq]
      rfl

end RiseLessonBot
